import Mathlib

/-!
Verification development for a facility maintenance tracking application
(machines, issues, issue updates, maintenance records, employees).

The persistent store is modelled as lists of records together with
per-table auto-increment counters; `datetime.utcnow()` is modelled by an
explicit `now : Time` argument threaded through every mutating operation.
Each definition below is a direct translation of the corresponding
function in `crud.py` (CRUD layer), `models.py` (table definitions,
including the SQLAlchemy delete cascades), `schemas.py` (payload shapes,
where an absent field of a partial-update payload is `none`), and
`main.py` (the HTTP handler for posting an issue update).
-/

/-- Timestamps (`datetime` columns) are modelled as natural numbers. -/
abbrev Time := Nat

/-- The three-element status enumeration of `models.IssueStatus`.
`opened` models the Python member `open` (a Lean keyword). -/
inductive IssueStatus where
  | opened
  | in_progress
  | closed
deriving DecidableEq

/-- Row of the `machines` table (`models.Machine`). -/
structure Machine where
  id : Nat
  name : String
  serial_number : Option String
  location : Option String
  description : Option String
  public_slug : String
  created_at : Time
  updated_at : Time
deriving DecidableEq

/-- Row of the `issues` table (`models.Issue`). -/
structure Issue where
  id : Nat
  machine_id : Nat
  title : String
  description : Option String
  reported_by : String
  reported_at : Time
  status : IssueStatus
  closed_at : Option Time
deriving DecidableEq

/-- Row of the `issue_updates` table (`models.IssueUpdate`). -/
structure IssueUpdate where
  id : Nat
  issue_id : Nat
  note : String
  author : String
  created_at : Time
  status_change : Option IssueStatus
deriving DecidableEq

/-- Row of the `maintenance` table (`models.Maintenance`). -/
structure Maintenance where
  id : Nat
  machine_id : Nat
  title : String
  description : Option String
  performed_by : String
  performed_at : Time
  next_due_at : Option Time
deriving DecidableEq

/-- Row of the `employees` table (`models.Employee`);
`is_active` is the 0/1 integer soft-delete flag. -/
structure Employee where
  id : Nat
  first_name : String
  last_name : String
  email : String
  phone : Option String
  department : Option String
  position : Option String
  employee_id : String
  is_active : Nat
  created_at : Time
  updated_at : Time
deriving DecidableEq

/-- The whole database: one list per table plus auto-increment counters. -/
structure Store where
  machines : List Machine
  issues : List Issue
  issue_updates : List IssueUpdate
  maintenance : List Maintenance
  employees : List Employee
  next_machine_id : Nat := 1
  next_issue_id : Nat := 1
  next_update_id : Nat := 1
  next_maintenance_id : Nat := 1
  next_employee_id : Nat := 1
deriving DecidableEq

/-- The empty database. -/
def store0 : Store := { machines := [], issues := [], issue_updates := [], maintenance := [], employees := [] }

/-- `schemas.MachineCreate`. -/
structure MachineCreate where
  name : String
  serial_number : Option String := none
  location : Option String := none
  description : Option String := none
deriving DecidableEq

/-- `schemas.MachineUpdate` with pydantic `exclude_unset` semantics:
an outer `none` means the field was absent from the payload; for nullable
columns `some none` means the field was explicitly set to null. -/
structure MachineUpdate where
  name : Option String := none
  serial_number : Option (Option String) := none
  location : Option (Option String) := none
  description : Option (Option String) := none
deriving DecidableEq

/-- `schemas.IssueCreate`. -/
structure IssueCreate where
  machine_id : Nat
  title : String
  description : Option String := none
  reported_by : String
  reported_at : Option Time := none
deriving DecidableEq

/-- `schemas.IssueUpdateCreate`. -/
structure IssueUpdateCreate where
  issue_id : Nat
  note : String
  author : String
  status_change : Option IssueStatus := none
deriving DecidableEq

/-- `schemas.MaintenanceCreate`. -/
structure MaintenanceCreate where
  machine_id : Nat
  title : String
  description : Option String := none
  performed_by : String
  performed_at : Option Time := none
  next_due_at : Option Time := none
deriving DecidableEq

/-- `schemas.EmployeeCreate` (`is_active` defaults to 1). -/
structure EmployeeCreate where
  first_name : String
  last_name : String
  email : String
  phone : Option String := none
  department : Option String := none
  position : Option String := none
  employee_id : String
  is_active : Nat := 1
deriving DecidableEq

/-- `schemas.EmployeeUpdate` with `exclude_unset` semantics (see `MachineUpdate`). -/
structure EmployeeUpdate where
  first_name : Option String := none
  last_name : Option String := none
  email : Option String := none
  phone : Option (Option String) := none
  department : Option (Option String) := none
  position : Option (Option String) := none
  employee_id : Option String := none
  is_active : Option Nat := none
deriving DecidableEq

/-- `ORDER BY key DESC`: sort a list so that larger keys come first
(SQL leaves the relative order of equal keys unspecified; we fix one). -/
def sortByDesc (key : α → Nat) (l : List α) : List α :=
  List.insertionSort (fun a b => key b ≤ key a) l

/-- `crud.generate_slug`: eight characters drawn from the 36-character
alphabet of lowercase letters and digits.  The random source
(`secrets.choice`) is modelled as an explicit stream `r` of indices. -/
def slugAlphabet : String := ("abcdefghijklmnopqrstuvwxyz0123456789")

def generate_slug (r : Nat → Fin 36) : String :=
  String.mk ((List.range 8).map (fun i => slugAlphabet.toList.getD (r i).val ('a')))

/-- `crud.ensure_unique_slug`: retry `generate_slug` until the result
collides with no existing machine slug.  The unbounded Python loop is
modelled with explicit fuel; `rs` gives the random stream of each
attempt. -/
def ensure_unique_slug (s : Store) (rs : Nat → Nat → Fin 36) : Nat → Nat → Option String
  | _, 0 => none
  | attempt, fuel + 1 =>
    let slug := generate_slug (rs attempt)
    if s.machines.any (fun m => m.public_slug == slug) then
      ensure_unique_slug s rs (attempt + 1) fuel
    else
      some slug

/-- `crud.get_machine`. -/
def get_machine (s : Store) (machine_id : Nat) : Option Machine :=
  s.machines.find? (fun m => m.id == machine_id)

/-- `crud.get_machine_by_slug`. -/
def get_machine_by_slug (s : Store) (slug : String) : Option Machine :=
  s.machines.find? (fun m => m.public_slug == slug)

/-- `crud.get_machines`: all machines ordered by `created_at` descending,
with offset/limit pagination. -/
def get_machines (s : Store) (skip limit : Nat) : List Machine :=
  ((sortByDesc (fun m => m.created_at) s.machines).drop skip).take limit

/-- SQL `LIKE` pattern matching on explicit character lists: `%` matches
any (possibly empty) sequence; `_` matches exactly one character.
`matchPercent f t` holds when `f` accepts some suffix of `t`. -/
def matchPercent (f : List Char → Bool) : List Char → Bool
  | [] => f []
  | c :: t => f (c :: t) || matchPercent f t

def likeMatch : List Char → List Char → Bool
  | [], t => t.isEmpty
  | c :: p, t =>
    if c = '%' then matchPercent (likeMatch p) t
    else
      match t with
      | [] => false
      | d :: t' => (c == '_' || c == d) && likeMatch p t'

/-- Lowercasing used by `ILIKE` (both operands are lowercased). -/
def lowerL (l : List Char) : List Char := l.map Char.toLower

/-- `column.ilike(pattern)`: case-insensitive SQL LIKE. -/
def ilike (text pattern : String) : Bool :=
  likeMatch (lowerL pattern.toList) (lowerL text.toList)

/-- `ilike` on a nullable column: SQL `NULL ILIKE p` is not true. -/
def ilikeOpt (text : Option String) (pattern : String) : Bool :=
  match text with
  | none => false
  | some t => ilike t pattern

/-- `crud.search_machines_with_open_issues`: machines whose name, serial
number or location matches `%query%` case-insensitively (no pagination),
each paired with its open-or-in-progress issues ordered by `reported_at`
descending.  The transient `open_issues` decoration is modelled as the
second component of the pair. -/
def search_machines_with_open_issues (s : Store) (query : String) : List (Machine × List Issue) :=
  let pat := ("%") ++ query ++ ("%")
  let ms := sortByDesc (fun m => m.created_at) (s.machines.filter (fun m =>
    ilike m.name pat || ilikeOpt m.serial_number pat || ilikeOpt m.location pat))
  ms.map (fun m =>
    (m, sortByDesc (fun i => i.reported_at) (s.issues.filter (fun i =>
      i.machine_id == m.id && (i.status == IssueStatus.opened || i.status == IssueStatus.in_progress)))))

/-- Field merge of `crud.create_machine`'s `models.Machine(**machine.dict(), ...)`. -/
def create_machine (s : Store) (now : Time) (rs : Nat → Nat → Fin 36) (fuel : Nat)
    (p : MachineCreate) : Option (Store × Machine) :=
  match ensure_unique_slug s rs 0 fuel with
  | none => none
  | some slug =>
    let m : Machine := {
      id := s.next_machine_id, name := p.name, serial_number := p.serial_number,
      location := p.location, description := p.description, public_slug := slug,
      created_at := now, updated_at := now }
    some ({ s with machines := s.machines ++ [m], next_machine_id := s.next_machine_id + 1 }, m)

/-- The `setattr` loop of `crud.update_machine`: only fields present in
the payload are overwritten. -/
def applyMachineUpdate (m : Machine) (u : MachineUpdate) : Machine :=
  { m with
    name := u.name.getD m.name,
    serial_number := u.serial_number.getD m.serial_number,
    location := u.location.getD m.location,
    description := u.description.getD m.description }

/-- `crud.update_machine`. -/
def update_machine (s : Store) (now : Time) (machine_id : Nat) (u : MachineUpdate) :
    Store × Option Machine :=
  match s.machines.find? (fun m => m.id == machine_id) with
  | none => (s, none)
  | some m =>
    let m' := { applyMachineUpdate m u with updated_at := now }
    ({ s with machines := s.machines.map (fun x => if x.id == machine_id then m' else x) }, some m')

/-- `crud.delete_machine` together with the SQLAlchemy cascades declared
in `models.py`: deleting a machine deletes its issues and maintenance
records (`Machine.issues`, `Machine.maintenance_records`), and deleting
an issue deletes its updates (`Issue.updates`). -/
def delete_machine (s : Store) (machine_id : Nat) : Store × Bool :=
  match s.machines.find? (fun m => m.id == machine_id) with
  | none => (s, false)
  | some _ =>
    let deletedIssues := s.issues.filter (fun i => i.machine_id == machine_id)
    ({ s with
        machines := s.machines.filter (fun m => !(m.id == machine_id)),
        issues := s.issues.filter (fun i => !(i.machine_id == machine_id)),
        issue_updates := s.issue_updates.filter
          (fun u => !(deletedIssues.any (fun i => i.id == u.issue_id))),
        maintenance := s.maintenance.filter (fun r => !(r.machine_id == machine_id)) },
      true)

/-- `crud.get_issue`. -/
def get_issue (s : Store) (issue_id : Nat) : Option Issue :=
  s.issues.find? (fun i => i.id == issue_id)

/-- `crud.get_machine_issues`: a machine's issues, optionally filtered by
status, ordered by `reported_at` descending. -/
def get_machine_issues (s : Store) (machine_id : Nat) (status_filter : Option IssueStatus) :
    List Issue :=
  let q := s.issues.filter (fun i => i.machine_id == machine_id)
  let q := match status_filter with
    | some st => q.filter (fun i => i.status == st)
    | none => q
  sortByDesc (fun i => i.reported_at) q

/-- Sort key for a nullable timestamp column under `ORDER BY ... DESC`:
on the SQLite backend NULL sorts below every value, so a descending
order lists non-null values newest first and NULL rows last. -/
def optKey (o : Option Time) : Nat :=
  match o with
  | none => 0
  | some t => t + 1

/-- `crud.get_closed_issues`: a machine's closed issues ordered by
`closed_at` descending, with offset/limit pagination. -/
def get_closed_issues (s : Store) (machine_id : Nat) (skip limit : Nat) : List Issue :=
  ((sortByDesc (fun i => optKey i.closed_at)
    (s.issues.filter (fun i =>
      i.machine_id == machine_id && i.status == IssueStatus.closed))).drop skip).take limit

/-- `crud.create_issue`: `reported_at` defaults to the current time;
`status` takes the column default `open`; `closed_at` starts null. -/
def create_issue (s : Store) (now : Time) (p : IssueCreate) : Store × Issue :=
  let i : Issue := {
    id := s.next_issue_id, machine_id := p.machine_id, title := p.title,
    description := p.description, reported_by := p.reported_by,
    reported_at := p.reported_at.getD now, status := IssueStatus.opened, closed_at := none }
  ({ s with issues := s.issues ++ [i], next_issue_id := s.next_issue_id + 1 }, i)

/-- `crud.update_issue_status`: set the status of the issue with the
given id; entering `closed` stamps `closed_at` with the current time. -/
def update_issue_status (s : Store) (now : Time) (issue_id : Nat) (status : IssueStatus) :
    Store × Option Issue :=
  match s.issues.find? (fun i => i.id == issue_id) with
  | none => (s, none)
  | some i =>
    let i' := { i with
      status := status,
      closed_at := if status == IssueStatus.closed then some now else i.closed_at }
    ({ s with issues := s.issues.map (fun x => if x.id == issue_id then i' else x) }, some i')

/-- `crud.get_issue_updates`: an issue's updates by `created_at` descending. -/
def get_issue_updates (s : Store) (issue_id : Nat) : List IssueUpdate :=
  sortByDesc (fun u => u.created_at) (s.issue_updates.filter (fun u => u.issue_id == issue_id))

/-- `crud.create_issue_update`: insert the update record, then, when a
`status_change` is present, apply `update_issue_status` to the parent
issue as a second effect. -/
def create_issue_update (s : Store) (now : Time) (p : IssueUpdateCreate) :
    Store × IssueUpdate :=
  let u : IssueUpdate := {
    id := s.next_update_id, issue_id := p.issue_id, note := p.note,
    author := p.author, created_at := now, status_change := p.status_change }
  let s1 := { s with issue_updates := s.issue_updates ++ [u], next_update_id := s.next_update_id + 1 }
  let s2 := match p.status_change with
    | some st => (update_issue_status s1 now p.issue_id st).1
    | none => s1
  (s2, u)

/-- `crud.get_maintenance_records`: a machine's maintenance records by
`performed_at` descending, newest `limit` of them. -/
def get_maintenance_records (s : Store) (machine_id : Nat) (limit : Nat) : List Maintenance :=
  (sortByDesc (fun r => r.performed_at) (s.maintenance.filter (fun r => r.machine_id == machine_id))).take limit

/-- `crud.create_maintenance`: `performed_at` defaults to the current time. -/
def create_maintenance (s : Store) (now : Time) (p : MaintenanceCreate) : Store × Maintenance :=
  let r : Maintenance := {
    id := s.next_maintenance_id, machine_id := p.machine_id, title := p.title,
    description := p.description, performed_by := p.performed_by,
    performed_at := p.performed_at.getD now, next_due_at := p.next_due_at }
  ({ s with maintenance := s.maintenance ++ [r], next_maintenance_id := s.next_maintenance_id + 1 }, r)

/-- `crud.get_employee` (lookup by primary key). -/
def get_employee (s : Store) (pk : Nat) : Option Employee :=
  s.employees.find? (fun e => e.id == pk)

/-- `crud.get_employee_by_email`. -/
def get_employee_by_email (s : Store) (email : String) : Option Employee :=
  s.employees.find? (fun e => e.email == email)

/-- `crud.get_employee_by_employee_id` (lookup by business code). -/
def get_employee_by_employee_id (s : Store) (code : String) : Option Employee :=
  s.employees.find? (fun e => e.employee_id == code)

/-- `crud.get_employees`: active employees (or all, when
`include_inactive`) by `created_at` descending, paginated. -/
def get_employees (s : Store) (skip limit : Nat) (include_inactive : Bool) : List Employee :=
  let q := if include_inactive then s.employees else s.employees.filter (fun e => e.is_active == 1)
  ((sortByDesc (fun e => e.created_at) q).drop skip).take limit

/-- `crud.create_employee`: reject a duplicate email, then a duplicate
employee code, before inserting. -/
def create_employee (s : Store) (now : Time) (p : EmployeeCreate) :
    Except String (Store × Employee) :=
  if (s.employees.find? (fun e => e.email == p.email)).isSome then
    .error ("Email already exists")
  else if (s.employees.find? (fun e => e.employee_id == p.employee_id)).isSome then
    .error ("Employee ID already exists")
  else
    let e : Employee := {
      id := s.next_employee_id, first_name := p.first_name, last_name := p.last_name,
      email := p.email, phone := p.phone, department := p.department,
      position := p.position, employee_id := p.employee_id, is_active := p.is_active,
      created_at := now, updated_at := now }
    .ok ({ s with employees := s.employees ++ [e], next_employee_id := s.next_employee_id + 1 }, e)

/-- The `setattr` loop of `crud.update_employee`. -/
def applyEmployeeUpdate (e : Employee) (u : EmployeeUpdate) : Employee :=
  { e with
    first_name := u.first_name.getD e.first_name,
    last_name := u.last_name.getD e.last_name,
    email := u.email.getD e.email,
    phone := u.phone.getD e.phone,
    department := u.department.getD e.department,
    position := u.position.getD e.position,
    employee_id := u.employee_id.getD e.employee_id,
    is_active := u.is_active.getD e.is_active }

/-- The email conflict test of `crud.update_employee`: only performed
when the payload carries an email that differs from the employee's own. -/
def emailConflict (s : Store) (e : Employee) (u : EmployeeUpdate) : Bool :=
  match u.email with
  | some em => em != e.email && (s.employees.find? (fun x => x.email == em)).isSome
  | none => false

/-- The employee-code conflict test of `crud.update_employee`. -/
def codeConflict (s : Store) (e : Employee) (u : EmployeeUpdate) : Bool :=
  match u.employee_id with
  | some code => code != e.employee_id && (s.employees.find? (fun x => x.employee_id == code)).isSome
  | none => false

/-- `crud.update_employee`: conflict checks are skipped when the field is
absent from the payload or equals the employee's own current value. -/
def update_employee (s : Store) (now : Time) (pk : Nat) (u : EmployeeUpdate) :
    Except String (Store × Option Employee) :=
  match s.employees.find? (fun e => e.id == pk) with
  | none => .ok (s, none)
  | some e =>
    if emailConflict s e u then
      .error ("Email already exists")
    else if codeConflict s e u then
      .error ("Employee ID already exists")
    else
      let e' := { applyEmployeeUpdate e u with updated_at := now }
      .ok ({ s with employees := s.employees.map (fun x => if x.id == pk then e' else x) }, some e')

/-- `crud.delete_employee`: soft delete (`is_active := 0`). -/
def delete_employee (s : Store) (now : Time) (pk : Nat) : Store × Bool :=
  match s.employees.find? (fun e => e.id == pk) with
  | none => (s, false)
  | some e =>
    let e' := { e with is_active := 0, updated_at := now }
    ({ s with employees := s.employees.map (fun x => if x.id == pk then e' else x) }, true)

/-- `crud.reactivate_employee` (`is_active := 1`). -/
def reactivate_employee (s : Store) (now : Time) (pk : Nat) : Store × Bool :=
  match s.employees.find? (fun e => e.id == pk) with
  | none => (s, false)
  | some e =>
    let e' := { e with is_active := 1, updated_at := now }
    ({ s with employees := s.employees.map (fun x => if x.id == pk then e' else x) }, true)

/-- The inline enum handling of the `POST /issues/{issue_id}/updates`
handler in `main.py`: a string outside the enumeration (or an empty
payload) silently becomes `None`. -/
def parse_status_change (st : Option String) : Option IssueStatus :=
  match st with
  | none => none
  | some v =>
    if v == ("open") then some IssueStatus.opened
    else if v == ("in_progress") then some IssueStatus.in_progress
    else if v == ("closed") then some IssueStatus.closed
    else none

/-- The `POST /issues/{issue_id}/updates` handler of `main.py`: coerce
the raw status string, resolve the author employee (404 when absent,
modelled as `.error`), snapshot the author's name, then call
`crud.create_issue_update`. -/
def create_issue_update_route (s : Store) (now : Time) (issue_id : Nat) (note : String)
    (author : Nat) (status_change : Option String) : Except String Store :=
  let status_enum := parse_status_change status_change
  match s.employees.find? (fun e => e.id == author) with
  | none => .error ("Employee not found")
  | some emp =>
    let payload : IssueUpdateCreate := {
      issue_id := issue_id, note := note,
      author := emp.first_name ++ (" ") ++ emp.last_name,
      status_change := status_enum }
    .ok (create_issue_update s now payload).1

/-- The states reachable from the empty database through the CRUD
operations (machine creation requires its slug search to succeed). -/
inductive Reachable : Store → Prop where
  | init : Reachable store0
  | step_create_machine (s : Store) (now : Time) (rs : Nat → Nat → Fin 36) (fuel : Nat)
      (p : MachineCreate) (s' : Store) (m : Machine) :
      Reachable s → create_machine s now rs fuel p = some (s', m) → Reachable s'
  | step_update_machine (s : Store) (now : Time) (mid : Nat) (u : MachineUpdate) :
      Reachable s → Reachable (update_machine s now mid u).1
  | step_delete_machine (s : Store) (mid : Nat) :
      Reachable s → Reachable (delete_machine s mid).1
  | step_create_issue (s : Store) (now : Time) (p : IssueCreate) :
      Reachable s → Reachable (create_issue s now p).1
  | step_update_issue_status (s : Store) (now : Time) (iid : Nat) (st : IssueStatus) :
      Reachable s → Reachable (update_issue_status s now iid st).1
  | step_create_issue_update (s : Store) (now : Time) (p : IssueUpdateCreate) :
      Reachable s → Reachable (create_issue_update s now p).1
  | step_create_maintenance (s : Store) (now : Time) (p : MaintenanceCreate) :
      Reachable s → Reachable (create_maintenance s now p).1
  | step_create_employee (s : Store) (now : Time) (p : EmployeeCreate) (s' : Store) (e : Employee) :
      Reachable s → create_employee s now p = .ok (s', e) → Reachable s'
  | step_update_employee (s : Store) (now : Time) (pk : Nat) (u : EmployeeUpdate)
      (s' : Store) (r : Option Employee) :
      Reachable s → update_employee s now pk u = .ok (s', r) → Reachable s'
  | step_delete_employee (s : Store) (now : Time) (pk : Nat) :
      Reachable s → Reachable (delete_employee s now pk).1
  | step_reactivate_employee (s : Store) (now : Time) (pk : Nat) :
      Reachable s → Reachable (reactivate_employee s now pk).1
  | step_issue_update_route (s : Store) (now : Time) (iid : Nat) (note : String)
      (author : Nat) (st : Option String) (s' : Store) :
      Reachable s → create_issue_update_route s now iid note author st = .ok s' → Reachable s'

/-! ### Concrete fixtures used by witnesses and counterexamples -/

/-- An issue payload whose caller-supplied `reported_at` (time 100) lies
in the future of the creation instant (time 5). -/
def issuePayloadC1 : IssueCreate :=
  { machine_id := 1, title := ("t"), description := none, reported_by := ("r"),
    reported_at := some 100 }

/-- Store holding the single future-dated issue of `issuePayloadC1`. -/
def storeC1 : Store := (create_issue store0 5 issuePayloadC1).1

/-- An issue-update payload carrying `status_change = closed`. -/
def updPayloadC2 : IssueUpdateCreate :=
  { issue_id := 1, note := ("n"), author := ("a"), status_change := some IssueStatus.closed }

/-- Store holding one open issue (id 1), reported at its default time. -/
def storeC2 : Store :=
  (create_issue store0 3 { machine_id := 1, title := ("t"), description := none,
                           reported_by := ("r"), reported_at := none }).1

/-- A single concrete employee (primary key 1). -/
def employeeC3 : Employee :=
  { id := 1, first_name := ("A"), last_name := ("B"), email := ("a@b.c"), phone := none,
    department := none, position := none, employee_id := ("E1"), is_active := 1,
    created_at := 0, updated_at := 0 }

/-- Store holding one issue and one employee: the issue-update route can
be exercised against it. -/
def storeC3 : Store :=
  { (create_issue store0 0 { machine_id := 1, title := ("t"), description := none,
                             reported_by := ("r"), reported_at := none }).1
    with employees := [employeeC3], next_employee_id := 2 }

/-- What the issue-update route actually produces on `storeC3` for an
out-of-enumeration status string: the update is inserted with a null
`status_change` and nothing is rejected. -/
def storeC3after : Store :=
  { storeC3 with
    issue_updates := [{ id := 1, issue_id := 1, note := ("n"), author := ("A B"),
                        created_at := 7, status_change := none }],
    next_update_id := 2 }

/-- Two maintenance payloads for machine 1: the first carries the later
`performed_at` (time 10), the second the earlier one (time 5). -/
def maintPayloadA : MaintenanceCreate :=
  { machine_id := 1, title := ("a"), description := none, performed_by := ("p"),
    performed_at := some 10, next_due_at := none }

def maintPayloadB : MaintenanceCreate :=
  { machine_id := 1, title := ("b"), description := none, performed_by := ("p"),
    performed_at := some 5, next_due_at := none }

/-- Store where record 1 was created first (at time 1, performed at 10)
and record 2 second (at time 2, performed at 5). -/
def storeC4 : Store :=
  (create_maintenance (create_maintenance store0 1 maintPayloadA).1 2 maintPayloadB).1

/-- A machine named "xy": its name does not contain the two-character
term "x_", yet the SQL pattern `%x_%` matches it. -/
def machineC9 : Machine :=
  { id := 1, name := ("xy"), serial_number := none, location := none, description := none,
    public_slug := ("aaaaaaaa"), created_at := 0, updated_at := 0 }

/-- Store holding only `machineC9`. -/
def storeC9 : Store := { store0 with machines := [machineC9] }

/-- Concrete machine, issue, issue update and maintenance fixtures for
the machine-deletion cascade. -/
def machineC6 : Machine :=
  { id := 1, name := ("m"), serial_number := none, location := none, description := none,
    public_slug := ("s1s1s1s1"), created_at := 0, updated_at := 0 }

def issueC6 : Issue :=
  { id := 1, machine_id := 1, title := ("i"), description := none, reported_by := ("r"),
    reported_at := 0, status := IssueStatus.opened, closed_at := none }

def updC6 : IssueUpdate :=
  { id := 1, issue_id := 1, note := ("n"), author := ("a"), created_at := 0,
    status_change := none }

def maintC6 : Maintenance :=
  { id := 1, machine_id := 1, title := ("t"), description := none, performed_by := ("p"),
    performed_at := 0, next_due_at := none }

/-- Store with one machine owning one issue (with one update) and one
maintenance record. -/
def storeC6 : Store :=
  { machines := [machineC6], issues := [issueC6], issue_updates := [updC6],
    maintenance := [maintC6], employees := [], next_machine_id := 2, next_issue_id := 2,
    next_update_id := 2, next_maintenance_id := 2 }

/-- Store holding two employees with distinct emails and codes. -/
def storeC5 : Store :=
  { store0 with
    employees := [employeeC3,
      { id := 2, first_name := ("C"), last_name := ("D"), email := ("c@d.e"), phone := none,
        department := none, position := none, employee_id := ("E2"), is_active := 1,
        created_at := 0, updated_at := 0 }],
    next_employee_id := 3 }

/-- Store with one machine and one employee, for the empty-payload
partial-update frame property. -/
def storeC8 : Store :=
  { store0 with
    machines := [machineC6], employees := [employeeC3],
    next_machine_id := 2, next_employee_id := 2 }

/-- A constant random stream for slug generation. -/
def rsZero : Nat → Nat → Fin 36 := fun _ _ => 0

/-- The issue record stored in `storeC2` (id 1, open, reported at 3). -/
def issueC2 : Issue :=
  { id := 1, machine_id := 1, title := ("t"), description := none, reported_by := ("r"),
    reported_at := 3, status := IssueStatus.opened, closed_at := none }

/-- The empty partial-update payload for machines (no field set). -/
def emptyMachineUpdate : MachineUpdate := {}

/-- The empty partial-update payload for employees (no field set). -/
def emptyEmployeeUpdate : EmployeeUpdate := {}

/-- An employee-creation payload whose email and code are fresh relative
to `storeC5`. -/
def pC5 : EmployeeCreate :=
  { first_name := ("X"), last_name := ("Y"), email := ("x@y.z"), phone := none,
    department := none, position := none, employee_id := ("E9"), is_active := 1 }

/-! ### C1 — closing an issue stamps `closed_at`; other statuses never clear it -/

/-- C1 (corrected): setting an issue's status to `closed` always stores
`closed_at = some now` (non-null), and this is at least `reported_at`
whenever `reported_at` does not lie in the future of the current time;
setting the status to `open` or `in_progress` leaves `closed_at` exactly
as it was (in particular it never clears a set value). -/
theorem C1_close_stamps (s : Store) (now : Time) (iid : Nat) (i : Issue)
    (hfind : s.issues.find? (fun x => x.id == iid) = some i) :
    (∃ i', (update_issue_status s now iid IssueStatus.closed).2 = some i' ∧
      i'.closed_at = some now ∧
      (i.reported_at ≤ now → ∃ t, i'.closed_at = some t ∧ i.reported_at ≤ t)) ∧
    (∀ st, st ≠ IssueStatus.closed →
      ∃ i', (update_issue_status s now iid st).2 = some i' ∧ i'.closed_at = i.closed_at) := by
  constructor
  · refine ⟨{ i with status := IssueStatus.closed, closed_at := some now }, ?_, rfl,
      fun h => ⟨now, rfl, h⟩⟩
    simp [update_issue_status, hfind]
  · intro st hst
    refine ⟨{ i with
                status := st,
                closed_at := if st == IssueStatus.closed then some now else i.closed_at },
      ?_, ?_⟩
    · simp [update_issue_status, hfind]
    · simp [beq_eq_false_iff_ne.mpr hst]

/-- Witness for C1 at a concrete store: issue 1 of `storeC2` was reported
at time 3 and is closed at time 4. -/
theorem C1_witness :
    storeC2.issues.find? (fun x => x.id == 1) = some issueC2 ∧
    issueC2.reported_at ≤ 4 ∧
    (∃ i', (update_issue_status storeC2 4 1 IssueStatus.closed).2 = some i' ∧
      i'.closed_at = some 4 ∧
      (issueC2.reported_at ≤ 4 → ∃ t, i'.closed_at = some t ∧ issueC2.reported_at ≤ t)) :=
  ⟨by decide, by decide, (C1_close_stamps storeC2 4 1 issueC2 (by decide)).1⟩

/-- C1 counterexample: `create_issue` accepts a caller-supplied
`reported_at` (here 100, while the clock reads 5), so closing the issue
at time 6 stores `closed_at = 6 < 100 = reported_at` — the claimed
`closed_at ≥ reported_at` is false for future-dated issues. -/
theorem C1_counterexample :
    ((update_issue_status storeC1 6 1 IssueStatus.closed).2.map
      (fun i => (i.closed_at, i.reported_at))) = some (some 6, 100) ∧ ¬ (100 ≤ 6) := by
  exact ⟨by decide, by decide⟩

/-! ### C2 — an issue update carrying a status change has both effects -/

/-- C2 (confirmed): for any existing issue, whatever its prior status,
`create_issue_update` with a non-null `status_change` appends the update
record carrying that value and sets the parent issue's status to it,
stamping `closed_at` when the value is `closed`. -/
theorem C2_status_change_dual_effect (s : Store) (now : Time) (p : IssueUpdateCreate)
    (st : IssueStatus) (i : Issue)
    (hst : p.status_change = some st)
    (hfind : s.issues.find? (fun x => x.id == p.issue_id) = some i) :
    ∃ s' u, create_issue_update s now p = (s', u) ∧
      u.status_change = some st ∧ u.note = p.note ∧ u.author = p.author ∧
      u.issue_id = p.issue_id ∧
      s'.issue_updates = s.issue_updates ++ [u] ∧
      (∀ j ∈ s'.issues, j.id = p.issue_id →
        j.status = st ∧ (st = IssueStatus.closed → j.closed_at = some now)) ∧
      (∃ j ∈ s'.issues, j.id = p.issue_id) := by
  have hid : (i.id == p.issue_id) = true := by
    have := List.find?_some hfind
    simpa using this
  refine ⟨_, _, rfl, hst, rfl, rfl, rfl, ?_, ?_, ?_⟩
  · simp [create_issue_update, hst, update_issue_status, hfind]
  · intro j hj hjid
    simp only [create_issue_update, hst, update_issue_status, hfind] at hj
    obtain ⟨x, hx, hfx⟩ := List.mem_map.mp hj
    by_cases hxid : (x.id == p.issue_id) = true
    · rw [if_pos hxid] at hfx
      subst hfx
      refine ⟨rfl, fun hc => ?_⟩
      simp [hc]
    · rw [if_neg hxid] at hfx
      subst hfx
      exact absurd hjid (by simpa using hxid)
  · refine ⟨{ i with
        status := st,
        closed_at := if st == IssueStatus.closed then some now else i.closed_at },
      ?_, by simpa using hid⟩
    simp only [create_issue_update, hst, update_issue_status, hfind]
    have hmem : i ∈ s.issues := List.mem_of_find?_eq_some hfind
    have h2 := List.mem_map_of_mem
      (fun x => if x.id == p.issue_id then
        { i with
          status := st,
          closed_at := if st == IssueStatus.closed then some now else i.closed_at } else x) hmem
    simpa [hid] using h2

/-- Witness for C2: posting the `closed` status-change update on the open
issue of `storeC2` at time 5. -/
theorem C2_witness :
    updPayloadC2.status_change = some IssueStatus.closed ∧
    storeC2.issues.find? (fun x => x.id == updPayloadC2.issue_id) = some issueC2 ∧
    (∃ s' u, create_issue_update storeC2 5 updPayloadC2 = (s', u) ∧
      u.status_change = some IssueStatus.closed ∧ u.note = updPayloadC2.note ∧
      u.author = updPayloadC2.author ∧ u.issue_id = updPayloadC2.issue_id ∧
      s'.issue_updates = storeC2.issue_updates ++ [u] ∧
      (∀ j ∈ s'.issues, j.id = updPayloadC2.issue_id →
        j.status = IssueStatus.closed ∧
        (IssueStatus.closed = IssueStatus.closed → j.closed_at = some 5)) ∧
      (∃ j ∈ s'.issues, j.id = updPayloadC2.issue_id)) :=
  ⟨rfl, by decide,
    C2_status_change_dual_effect storeC2 5 updPayloadC2 IssueStatus.closed issueC2 rfl (by decide)⟩

/-! ### C10 — an issue update for a nonexistent issue is still inserted -/

/-- C10 (confirmed): when the payload's `issue_id` matches no stored
issue, `create_issue_update` still inserts and returns the update record
(no error is ever raised), and every other table — in particular the
issues — is left untouched: the status-change step is silently skipped. -/
theorem C10_orphan_update_inserted (s : Store) (now : Time) (p : IssueUpdateCreate)
    (hmiss : ∀ i ∈ s.issues, i.id ≠ p.issue_id) :
    ∃ s' u, create_issue_update s now p = (s', u) ∧
      s'.issue_updates = s.issue_updates ++ [u] ∧
      s'.issues = s.issues ∧ s'.machines = s.machines ∧
      s'.maintenance = s.maintenance ∧ s'.employees = s.employees ∧
      u.issue_id = p.issue_id ∧ u.note = p.note ∧ u.author = p.author ∧
      u.status_change = p.status_change := by
  have hfind : s.issues.find? (fun x => x.id == p.issue_id) = none := by
    rw [List.find?_eq_none]
    intro x hx
    simpa using hmiss x hx
  refine ⟨(create_issue_update s now p).1, (create_issue_update s now p).2,
    rfl, ?_, ?_, ?_, ?_, ?_, rfl, rfl, rfl, rfl⟩ <;>
    cases hp : p.status_change <;>
      simp [create_issue_update, hp, update_issue_status, hfind]

/-- Witness for C10: the empty store has no issue 1, yet posting
`updPayloadC2` inserts the update and changes nothing else. -/
theorem C10_witness :
    (∀ i ∈ store0.issues, i.id ≠ updPayloadC2.issue_id) ∧
    (∃ s' u, create_issue_update store0 5 updPayloadC2 = (s', u) ∧
      s'.issue_updates = store0.issue_updates ++ [u] ∧
      s'.issues = store0.issues ∧ s'.machines = store0.machines ∧
      s'.maintenance = store0.maintenance ∧ s'.employees = store0.employees ∧
      u.issue_id = updPayloadC2.issue_id ∧ u.note = updPayloadC2.note ∧
      u.author = updPayloadC2.author ∧ u.status_change = updPayloadC2.status_change) :=
  ⟨by simp [store0], C10_orphan_update_inserted store0 5 updPayloadC2 (by simp [store0])⟩

/-! ### C3 — out-of-enumeration status values -/

/-- C3 (corrected): the issue-update endpoint does not reject an
out-of-enumeration `status_change` string.  It silently coerces the value
to `None`, still inserts the IssueUpdate record (with a null
`status_change`, leaving every issue untouched), and reports success; no
stored record ever carries a value outside the enumeration, but no
validation error is raised either. -/
theorem C3_invalid_status_coerced (s : Store) (now : Time) (iid : Nat) (note : String)
    (author : Nat) (v : String) (emp : Employee)
    (hemp : s.employees.find? (fun e => e.id == author) = some emp)
    (hv : v ≠ ("open") ∧ v ≠ ("in_progress") ∧ v ≠ ("closed")) :
    ∃ u, create_issue_update_route s now iid note author (some v) =
        .ok { s with
              issue_updates := s.issue_updates ++ [u],
              next_update_id := s.next_update_id + 1 } ∧
      u.status_change = none ∧ u.issue_id = iid ∧ u.note = note ∧
      u.author = emp.first_name ++ (" ") ++ emp.last_name := by
  have hp : parse_status_change (some v) = none := by
    simp [parse_status_change, beq_eq_false_iff_ne.mpr hv.1, beq_eq_false_iff_ne.mpr hv.2.1,
      beq_eq_false_iff_ne.mpr hv.2.2]
  refine ⟨{ id := s.next_update_id, issue_id := iid, note := note,
            author := emp.first_name ++ (" ") ++ emp.last_name,
            created_at := now, status_change := none },
    ?_, rfl, rfl, rfl, rfl⟩
  simp [create_issue_update_route, hemp, hp, create_issue_update]

/-- Witness for C3: posting the invalid status string "banana" against
`storeC3` succeeds and stores a null status change. -/
theorem C3_witness :
    storeC3.employees.find? (fun e => e.id == 1) = some employeeC3 ∧
    (∃ u, create_issue_update_route storeC3 7 1 ("n") 1 (some ("banana")) =
        .ok { storeC3 with
              issue_updates := storeC3.issue_updates ++ [u],
              next_update_id := storeC3.next_update_id + 1 } ∧
      u.status_change = none ∧ u.issue_id = 1 ∧ u.note = ("n") ∧
      u.author = employeeC3.first_name ++ (" ") ++ employeeC3.last_name) :=
  ⟨by decide,
    C3_invalid_status_coerced storeC3 7 1 ("n") 1 ("banana") employeeC3 (by decide)
      ⟨by decide, by decide, by decide⟩⟩

/-- C3 counterexample: with the out-of-enumeration value "banana" the
endpoint answers success and writes an IssueUpdate row — the claimed
rejection-before-storage does not happen. -/
theorem C3_counterexample :
    create_issue_update_route storeC3 7 1 ("n") 1 (some ("banana")) = .ok storeC3after ∧
    storeC3after.issue_updates ≠ storeC3.issue_updates :=
  ⟨rfl, by decide⟩

/-! ### C4 — list orderings -/

/-- Descending insertion sort produces a list sorted by its key. -/
theorem sortByDesc_sorted (key : α → Nat) (l : List α) :
    (sortByDesc key l).Sorted (fun a b => key b ≤ key a) := by
  haveI : IsTotal α (fun a b => key b ≤ key a) := ⟨fun a b => Nat.le_total (key b) (key a)⟩
  haveI : IsTrans α (fun a b => key b ≤ key a) := ⟨fun a b c hab hbc => le_trans hbc hab⟩
  exact List.sorted_insertionSort _ l

/-- Offset/limit pagination preserves sortedness. -/
theorem sorted_drop_take {r : α → α → Prop} {l : List α} (h : l.Sorted r) (a b : Nat) :
    ((l.drop a).take b).Sorted r :=
  List.Pairwise.sublist ((List.take_sublist _ _).trans (List.drop_sublist _ _)) h

/-- C4 (corrected): each list operation returns its records ordered
descending by that entity's own domain timestamp — machines and
employees by `created_at`, machine issue listings by `reported_at`,
closed-issue listings by `closed_at` (null last), maintenance records by
`performed_at`, issue updates by `created_at`.  This coincides with
"descending creation time" only where the timestamp is always stamped at
creation; `reported_at` and `performed_at` may be caller-supplied and
`closed_at` is the closing instant, so those lists need not follow
creation order. -/
theorem C4_list_orderings (s : Store) (skip limit mid iid : Nat)
    (filt : Option IssueStatus) (inc : Bool) :
    (get_machines s skip limit).Sorted (fun a b => b.created_at ≤ a.created_at) ∧
    (get_machine_issues s mid filt).Sorted (fun a b => b.reported_at ≤ a.reported_at) ∧
    (get_closed_issues s mid skip limit).Sorted
      (fun a b => optKey b.closed_at ≤ optKey a.closed_at) ∧
    (get_maintenance_records s mid limit).Sorted (fun a b => b.performed_at ≤ a.performed_at) ∧
    (get_employees s skip limit inc).Sorted (fun a b => b.created_at ≤ a.created_at) ∧
    (get_issue_updates s iid).Sorted (fun a b => b.created_at ≤ a.created_at) := by
  refine ⟨?_, ?_, ?_, ?_, ?_, ?_⟩
  · exact sorted_drop_take (sortByDesc_sorted _ _) skip limit
  · exact sortByDesc_sorted _ _
  · exact sorted_drop_take (sortByDesc_sorted (fun i : Issue => optKey i.closed_at) _) skip limit
  · exact sorted_drop_take (sortByDesc_sorted _ _) 0 limit
  · exact sorted_drop_take (sortByDesc_sorted _ _) skip limit
  · exact sortByDesc_sorted _ _

/-- C4 counterexample: in `storeC4`, maintenance record 1 was created
first (at time 1) and record 2 second (at time 2), but record 2 carries
the earlier `performed_at`.  Descending creation time would list
`[2, 1]`; `get_maintenance_records` returns `[1, 2]` (ordered by
`performed_at`), so the claimed creation-time ordering is false. -/
theorem C4_counterexample :
    ((get_maintenance_records storeC4 1 5).map (fun r => r.id)) = [1, 2] ∧
    ([1, 2] : List Nat) ≠ [2, 1] :=
  ⟨by decide, by decide⟩

/-! ### C8 — empty partial update only refreshes `updated_at` -/

/-- C8 (confirmed): a partial update with no field set leaves every
stored field of an existing machine or employee unchanged, except
`updated_at`, which is set to the current time; the refreshed record is
what gets stored. -/
theorem C8_empty_update_frame (s : Store) (now : Time) (mid pk : Nat) :
    (∀ m, get_machine s mid = some m →
      (update_machine s now mid emptyMachineUpdate).2 = some { m with updated_at := now } ∧
      { m with updated_at := now } ∈ (update_machine s now mid emptyMachineUpdate).1.machines) ∧
    (∀ e, get_employee s pk = some e →
      ∃ s', update_employee s now pk emptyEmployeeUpdate =
          .ok (s', some { e with updated_at := now }) ∧
        { e with updated_at := now } ∈ s'.employees) := by
  constructor
  · intro m hm
    rw [get_machine] at hm
    have hid : (m.id == mid) = true := by simpa using List.find?_some hm
    have hmem := List.mem_of_find?_eq_some hm
    have happ : applyMachineUpdate m emptyMachineUpdate = m := rfl
    constructor
    · simp [update_machine, hm, happ]
    · simp only [update_machine, hm]
      refine List.mem_map.mpr ⟨m, hmem, ?_⟩
      simp [hid, happ]
  · intro e he
    rw [get_employee] at he
    have hid : (e.id == pk) = true := by simpa using List.find?_some he
    have hmem := List.mem_of_find?_eq_some he
    have happ : applyEmployeeUpdate e emptyEmployeeUpdate = e := rfl
    have hec : emailConflict s e emptyEmployeeUpdate = false := rfl
    have hcc : codeConflict s e emptyEmployeeUpdate = false := rfl
    refine ⟨{ s with
                employees := s.employees.map
                  (fun x => if x.id == pk then { e with updated_at := now } else x) },
      ?_, ?_⟩
    · simp [update_employee, he, hec, hcc, happ]
    · refine List.mem_map.mpr ⟨e, hmem, ?_⟩
      simp [hid]

/-- Witness for C8 on `storeC8` (machine 1 and employee 1, clock 9). -/
theorem C8_witness :
    get_machine storeC8 1 = some machineC6 ∧
    get_employee storeC8 1 = some employeeC3 ∧
    ((update_machine storeC8 9 1 emptyMachineUpdate).2 = some { machineC6 with updated_at := 9 } ∧
      { machineC6 with updated_at := 9 } ∈ (update_machine storeC8 9 1 emptyMachineUpdate).1.machines) ∧
    (∃ s', update_employee storeC8 9 1 emptyEmployeeUpdate =
        .ok (s', some { employeeC3 with updated_at := 9 }) ∧
      { employeeC3 with updated_at := 9 } ∈ s'.employees) :=
  ⟨by decide, by decide,
    (C8_empty_update_frame storeC8 9 1 1).1 machineC6 (by decide),
    (C8_empty_update_frame storeC8 9 1 1).2 employeeC3 (by decide)⟩

/-! ### C6 — deleting a machine cascades to all dependents -/

/-- C6 (confirmed): deleting an existing machine reports success and
removes the machine, all of its issues, all updates of those issues and
all of its maintenance records: afterwards the machine lookup, the
lookup of any of its issues, and the updates listing of any of its
issues all find nothing, and none of its maintenance records or issue
updates remain stored.  (Issue ids are pairwise distinct in any real
database state — they are a primary key.) -/
theorem C6_delete_machine_cascades (s : Store) (mid : Nat) (m : Machine)
    (hm : get_machine s mid = some m)
    (huniq : s.issues.Pairwise (fun a b => a.id ≠ b.id)) :
    (delete_machine s mid).2 = true ∧
    get_machine (delete_machine s mid).1 mid = none ∧
    (∀ i ∈ s.issues, i.machine_id = mid →
      get_issue (delete_machine s mid).1 i.id = none ∧
      get_issue_updates (delete_machine s mid).1 i.id = []) ∧
    (∀ r ∈ s.maintenance, r.machine_id = mid → r ∉ (delete_machine s mid).1.maintenance) ∧
    (∀ u ∈ s.issue_updates, (∃ i ∈ s.issues, i.machine_id = mid ∧ u.issue_id = i.id) →
      u ∉ (delete_machine s mid).1.issue_updates) := by
  rw [get_machine] at hm
  have hsym : Symmetric (fun a b : Issue => a.id ≠ b.id) :=
    fun a b h => fun he => h he.symm
  refine ⟨?_, ?_, ?_, ?_, ?_⟩
  · simp [delete_machine, hm]
  · simp only [delete_machine, hm]
    rw [get_machine, List.find?_eq_none]
    intro x hx
    have := (List.mem_filter.mp hx).2
    simpa using this
  · intro i hi himid
    constructor
    · simp only [delete_machine, hm]
      rw [get_issue, List.find?_eq_none]
      intro j hj hbeq
      obtain ⟨hjmem, hjp⟩ := List.mem_filter.mp hj
      have hjmid : j.machine_id ≠ mid := by simpa using hjp
      have hji : j.id = i.id := by simpa using hbeq
      have hne : j ≠ i := by
        intro h
        exact hjmid (h ▸ himid)
      exact (List.Pairwise.forall hsym huniq hjmem hi hne) hji
    · simp only [delete_machine, hm]
      rw [get_issue_updates]
      have hfil : (s.issue_updates.filter
          (fun u => !((s.issues.filter (fun x => x.machine_id == mid)).any
            (fun x => x.id == u.issue_id)))).filter (fun u => u.issue_id == i.id) = [] := by
        rw [List.filter_eq_nil_iff]
        intro a ha hbeq
        obtain ⟨hamem, hap⟩ := List.mem_filter.mp ha
        have hnone : ((s.issues.filter (fun x => x.machine_id == mid)).any
            (fun x => x.id == a.issue_id)) = false := by simpa using hap
        have hin : i ∈ s.issues.filter (fun x => x.machine_id == mid) :=
          List.mem_filter.mpr ⟨hi, by simpa using himid⟩
        have haid : a.issue_id = i.id := by simpa using hbeq
        have : ((s.issues.filter (fun x => x.machine_id == mid)).any
            (fun x => x.id == a.issue_id)) = true :=
          List.any_eq_true.mpr ⟨i, hin, by simpa using haid.symm⟩
        rw [hnone] at this
        exact Bool.false_ne_true this
      rw [hfil]
      rfl
  · intro r hr hrmid hmem
    simp only [delete_machine, hm] at hmem
    have := (List.mem_filter.mp hmem).2
    rw [show ((!(r.machine_id == mid)) = true) = (r.machine_id ≠ mid) from by simp] at this
    exact this hrmid
  · intro u hu ⟨i, hi, himid, huid⟩ hmem
    simp only [delete_machine, hm] at hmem
    obtain ⟨hamem, hap⟩ := List.mem_filter.mp hmem
    have hnone : ((s.issues.filter (fun x => x.machine_id == mid)).any
        (fun x => x.id == u.issue_id)) = false := by simpa using hap
    have hin : i ∈ s.issues.filter (fun x => x.machine_id == mid) :=
      List.mem_filter.mpr ⟨hi, by simpa using himid⟩
    have : ((s.issues.filter (fun x => x.machine_id == mid)).any
        (fun x => x.id == u.issue_id)) = true :=
      List.any_eq_true.mpr ⟨i, hin, by simpa using huid.symm⟩
    rw [hnone] at this
    exact Bool.false_ne_true this

/-- Witness for C6: deleting machine 1 of `storeC6` removes its issue,
that issue's update, and its maintenance record. -/
theorem C6_witness :
    get_machine storeC6 1 = some machineC6 ∧
    storeC6.issues.Pairwise (fun a b => a.id ≠ b.id) ∧
    (delete_machine storeC6 1).2 = true ∧
    get_machine (delete_machine storeC6 1).1 1 = none ∧
    (∀ i ∈ storeC6.issues, i.machine_id = 1 →
      get_issue (delete_machine storeC6 1).1 i.id = none ∧
      get_issue_updates (delete_machine storeC6 1).1 i.id = []) ∧
    (∀ r ∈ storeC6.maintenance, r.machine_id = 1 →
      r ∉ (delete_machine storeC6 1).1.maintenance) ∧
    (∀ u ∈ storeC6.issue_updates, (∃ i ∈ storeC6.issues, i.machine_id = 1 ∧ u.issue_id = i.id) →
      u ∉ (delete_machine storeC6 1).1.issue_updates) := by
  have h := C6_delete_machine_cascades storeC6 1 machineC6 (by decide) (by decide)
  exact ⟨by decide, by decide, h.1, h.2.1, h.2.2.1, h.2.2.2.1, h.2.2.2.2⟩

/-! ### C5 — employee uniqueness conflicts -/

/-- `create_employee` fails exactly when some stored employee already
holds the payload's email or code. -/
theorem create_employee_error_iff (s : Store) (now : Time) (p : EmployeeCreate) :
    (∃ msg, create_employee s now p = .error msg) ↔
      (∃ x ∈ s.employees, x.email = p.email) ∨
      (∃ x ∈ s.employees, x.employee_id = p.employee_id) := by
  rw [create_employee]
  by_cases h1 : ((s.employees.find? (fun e => e.email == p.email)).isSome) = true
  · rw [if_pos h1]
    constructor
    · intro _
      left
      have := List.find?_isSome.mp h1
      simpa using this
    · intro _
      exact ⟨_, rfl⟩
  · rw [if_neg h1]
    by_cases h2 : ((s.employees.find? (fun e => e.employee_id == p.employee_id)).isSome) = true
    · rw [if_pos h2]
      constructor
      · intro _
        right
        have := List.find?_isSome.mp h2
        simpa using this
      · intro _
        exact ⟨_, rfl⟩
    · rw [if_neg h2]
      constructor
      · rintro ⟨msg, hmsg⟩
        simp at hmsg
      · rintro (⟨x, hx, hxe⟩ | ⟨x, hx, hxc⟩)
        · exact absurd (List.find?_isSome.mpr ⟨x, hx, by simpa using hxe⟩) h1
        · exact absurd (List.find?_isSome.mpr ⟨x, hx, by simpa using hxc⟩) h2

/-- Appending to a list in which nothing satisfies `p` makes the new
element the first hit of `find?`. -/
theorem find?_append_right_of_none {p : α → Bool} {l : List α} {x : α}
    (h : l.find? p = none) (hx : p x = true) : (l ++ [x]).find? p = some x := by
  rw [List.find?_append, h]
  simp [List.find?_cons, hx]

/-- After a successful `create_employee`, the new employee is retrievable
by email and by code. -/
theorem create_employee_ok_mem (s : Store) (now : Time) (p : EmployeeCreate)
    (s' : Store) (emp : Employee) (h : create_employee s now p = .ok (s', emp)) :
    get_employee_by_email s' p.email = some emp ∧
    get_employee_by_employee_id s' p.employee_id = some emp := by
  rw [create_employee] at h
  by_cases h1 : ((s.employees.find? (fun e => e.email == p.email)).isSome) = true
  · rw [if_pos h1] at h
    simp at h
  · rw [if_neg h1] at h
    by_cases h2 : ((s.employees.find? (fun e => e.employee_id == p.employee_id)).isSome) = true
    · rw [if_pos h2] at h
      simp at h
    · rw [if_neg h2] at h
      simp only [Except.ok.injEq, Prod.mk.injEq] at h
      obtain ⟨hs, hemp⟩ := h
      subst hs
      subst hemp
      constructor
      · simp only [get_employee_by_email]
        exact find?_append_right_of_none (Option.not_isSome_iff_eq_none.mp h1) (by simp)
      · simp only [get_employee_by_employee_id]
        exact find?_append_right_of_none (Option.not_isSome_iff_eq_none.mp h2) (by simp)

/-- `update_employee` fails exactly when the payload changes the email or
the code to a value held by a different employee (ids, emails and codes
are pairwise distinct in any real database state — they are unique
columns). -/
theorem update_employee_error_iff (s : Store) (now : Time) (pk : Nat) (u : EmployeeUpdate)
    (e : Employee)
    (hids : s.employees.Pairwise (fun a b => a.id ≠ b.id))
    (hmails : s.employees.Pairwise (fun a b => a.email ≠ b.email))
    (hcodes : s.employees.Pairwise (fun a b => a.employee_id ≠ b.employee_id))
    (hfind : s.employees.find? (fun x => x.id == pk) = some e) :
    (∃ msg, update_employee s now pk u = .error msg) ↔
      (∃ x ∈ s.employees, x.id ≠ e.id ∧
        ((∃ em, u.email = some em ∧ x.email = em) ∨
         (∃ code, u.employee_id = some code ∧ x.employee_id = code))) := by
  have hmem : e ∈ s.employees := List.mem_of_find?_eq_some hfind
  have hsym_id : Symmetric (fun a b : Employee => a.id ≠ b.id) :=
    fun a b h he => h he.symm
  have hsym_mail : Symmetric (fun a b : Employee => a.email ≠ b.email) :=
    fun a b h he => h he.symm
  have hsym_code : Symmetric (fun a b : Employee => a.employee_id ≠ b.employee_id) :=
    fun a b h he => h he.symm
  simp only [update_employee, hfind]
  by_cases h1 : emailConflict s e u = true
  · rw [if_pos h1]
    constructor
    · intro _
      rcases hu : u.email with _ | em
      · rw [emailConflict, hu] at h1
        simp at h1
      · rw [emailConflict, hu] at h1
        rw [Bool.and_eq_true] at h1
        obtain ⟨hne, hsome⟩ := h1
        obtain ⟨x, hx, hxe⟩ := List.find?_isSome.mp hsome
        have hxe' : x.email = em := by simpa using hxe
        have hne' : em ≠ e.email := by simpa using hne
        have hxne : x ≠ e := by
          intro hh
          exact hne' (by rw [← hxe', hh])
        exact ⟨x, hx, List.Pairwise.forall hsym_id hids hx hmem hxne,
          .inl ⟨em, rfl, hxe'⟩⟩
    · intro _
      exact ⟨_, rfl⟩
  · rw [if_neg h1]
    by_cases h2 : codeConflict s e u = true
    · rw [if_pos h2]
      constructor
      · intro _
        rcases hu : u.employee_id with _ | code
        · rw [codeConflict, hu] at h2
          simp at h2
        · rw [codeConflict, hu] at h2
          rw [Bool.and_eq_true] at h2
          obtain ⟨hne, hsome⟩ := h2
          obtain ⟨x, hx, hxc⟩ := List.find?_isSome.mp hsome
          have hxc' : x.employee_id = code := by simpa using hxc
          have hne' : code ≠ e.employee_id := by simpa using hne
          have hxne : x ≠ e := by
            intro hh
            exact hne' (by rw [← hxc', hh])
          exact ⟨x, hx, List.Pairwise.forall hsym_id hids hx hmem hxne,
            .inr ⟨code, rfl, hxc'⟩⟩
      · intro _
        exact ⟨_, rfl⟩
    · rw [if_neg h2]
      constructor
      · rintro ⟨msg, hmsg⟩
        simp at hmsg
      · rintro ⟨x, hx, hxid, hdisj⟩
        exfalso
        have hxne : x ≠ e := fun hh => hxid (by rw [hh])
        rcases hdisj with ⟨em, hu, hxe⟩ | ⟨code, hu, hxc⟩
        · apply h1
          rw [emailConflict, hu]
          have hme : x.email ≠ e.email :=
            List.Pairwise.forall hsym_mail hmails hx hmem hxne
          rw [Bool.and_eq_true]
          refine ⟨?_, ?_⟩
          · simpa [bne_iff_ne] using (hxe ▸ hme)
          · exact List.find?_isSome.mpr ⟨x, hx, by simpa using hxe⟩
        · apply h2
          rw [codeConflict, hu]
          have hmc : x.employee_id ≠ e.employee_id :=
            List.Pairwise.forall hsym_code hcodes hx hmem hxne
          rw [Bool.and_eq_true]
          refine ⟨?_, ?_⟩
          · simpa [bne_iff_ne] using (hxc ▸ hmc)
          · exact List.find?_isSome.mpr ⟨x, hx, by simpa using hxc⟩

/-- Updating an employee's email and code to their own current values
(or leaving them unset) never raises a conflict. -/
theorem update_employee_self_no_conflict (s : Store) (now : Time) (pk : Nat)
    (u : EmployeeUpdate) (e : Employee)
    (hfind : s.employees.find? (fun x => x.id == pk) = some e)
    (h1 : u.email = some e.email ∨ u.email = none)
    (h2 : u.employee_id = some e.employee_id ∨ u.employee_id = none) :
    ∃ s' e', update_employee s now pk u = .ok (s', some e') := by
  have hec : emailConflict s e u = false := by
    rcases h1 with h | h <;> simp [emailConflict, h]
  have hcc : codeConflict s e u = false := by
    rcases h2 with h | h <;> simp [codeConflict, h]
  simp only [update_employee, hfind]
  rw [if_neg (by simp [hec]), if_neg (by simp [hcc])]
  exact ⟨_, _, rfl⟩

/-- C5 (confirmed): `create_employee` raises Conflict exactly when some
stored employee already holds the given email or code, and on success
the new employee is retrievable by both lookup keys; `update_employee`
raises Conflict exactly when the payload changes the email or code to a
value held by a different employee — in particular, re-submitting the
employee's own email and code never conflicts. -/
theorem C5_employee_uniqueness (s : Store) (now : Time) (p : EmployeeCreate)
    (pk : Nat) (u : EmployeeUpdate) (e : Employee)
    (hids : s.employees.Pairwise (fun a b => a.id ≠ b.id))
    (hmails : s.employees.Pairwise (fun a b => a.email ≠ b.email))
    (hcodes : s.employees.Pairwise (fun a b => a.employee_id ≠ b.employee_id))
    (hfind : s.employees.find? (fun x => x.id == pk) = some e) :
    ((∃ msg, create_employee s now p = .error msg) ↔
      (∃ x ∈ s.employees, x.email = p.email) ∨
      (∃ x ∈ s.employees, x.employee_id = p.employee_id)) ∧
    (∀ s' emp, create_employee s now p = .ok (s', emp) →
      get_employee_by_email s' p.email = some emp ∧
      get_employee_by_employee_id s' p.employee_id = some emp) ∧
    ((∃ msg, update_employee s now pk u = .error msg) ↔
      (∃ x ∈ s.employees, x.id ≠ e.id ∧
        ((∃ em, u.email = some em ∧ x.email = em) ∨
         (∃ code, u.employee_id = some code ∧ x.employee_id = code)))) ∧
    ((u.email = some e.email ∨ u.email = none) →
     (u.employee_id = some e.employee_id ∨ u.employee_id = none) →
      ∃ s' e', update_employee s now pk u = .ok (s', some e')) :=
  ⟨create_employee_error_iff s now p,
   fun s' emp h => create_employee_ok_mem s now p s' emp h,
   update_employee_error_iff s now pk u e hids hmails hcodes hfind,
   fun h1 h2 => update_employee_self_no_conflict s now pk u e hfind h1 h2⟩

/-- Witness for C5 on `storeC5` (two employees): a fresh payload does not
conflict, and the empty update on employee 1 succeeds. -/
theorem C5_witness :
    storeC5.employees.Pairwise (fun a b => a.id ≠ b.id) ∧
    storeC5.employees.Pairwise (fun a b => a.email ≠ b.email) ∧
    storeC5.employees.Pairwise (fun a b => a.employee_id ≠ b.employee_id) ∧
    storeC5.employees.find? (fun x => x.id == 1) = some employeeC3 ∧
    ((∃ msg, create_employee storeC5 4 pC5 = .error msg) ↔
      (∃ x ∈ storeC5.employees, x.email = pC5.email) ∨
      (∃ x ∈ storeC5.employees, x.employee_id = pC5.employee_id)) ∧
    (∃ s' e', update_employee storeC5 4 1 emptyEmployeeUpdate = .ok (s', some e')) := by
  have h := C5_employee_uniqueness storeC5 4 pC5 1 emptyEmployeeUpdate employeeC3
    (by decide) (by decide) (by decide) (by decide)
  exact ⟨by decide, by decide, by decide, by decide, h.1, h.2.2.2 (.inr rfl) (.inr rfl)⟩

/-! ### C7 — slug shape, freshness, and global uniqueness -/

/-- Each slug character comes from the 36-character alphabet. -/
theorem slugAlphabet_getD_mem : ∀ n, n < 36 → slugAlphabet.toList.getD n ('a') ∈ slugAlphabet.toList := by
  decide

/-- Generated slugs have length 8. -/
theorem generate_slug_length (r : Nat → Fin 36) : (generate_slug r).length = 8 := by
  show ((List.range 8).map (fun i => slugAlphabet.toList.getD (r i).val ('a'))).length = 8
  rw [List.length_map, List.length_range]

/-- Generated slugs use only slug-alphabet characters. -/
theorem generate_slug_chars (r : Nat → Fin 36) :
    ∀ c ∈ (generate_slug r).toList, c ∈ slugAlphabet.toList := by
  intro c hc
  simp only [generate_slug, String.toList, List.mem_map] at hc
  obtain ⟨i, _, rfl⟩ := hc
  exact slugAlphabet_getD_mem _ (r i).isLt

/-- A slug returned by `ensure_unique_slug` collides with no stored
machine slug. -/
theorem ensure_unique_slug_fresh (s : Store) (rs : Nat → Nat → Fin 36) :
    ∀ fuel attempt slug, ensure_unique_slug s rs attempt fuel = some slug →
      ∀ m ∈ s.machines, m.public_slug ≠ slug := by
  intro fuel
  induction fuel with
  | zero =>
    intro attempt slug h
    simp [ensure_unique_slug] at h
  | succ n ih =>
    intro attempt slug h
    simp only [ensure_unique_slug] at h
    by_cases hany : (s.machines.any (fun m => m.public_slug == generate_slug (rs attempt))) = true
    · rw [if_pos hany] at h
      exact ih _ _ h
    · rw [if_neg hany] at h
      obtain rfl := Option.some.inj h
      intro m hm heq
      exact hany (List.any_eq_true.mpr ⟨m, hm, by simpa using heq⟩)

/-- Operations that never touch the machines table leave both the
machines list and the machine id counter unchanged. -/
theorem update_issue_status_machines (s : Store) (now : Time) (iid : Nat) (st : IssueStatus) :
    (update_issue_status s now iid st).1.machines = s.machines ∧
    (update_issue_status s now iid st).1.next_machine_id = s.next_machine_id := by
  unfold update_issue_status
  split <;> exact ⟨rfl, rfl⟩

theorem create_issue_update_machines (s : Store) (now : Time) (p : IssueUpdateCreate) :
    (create_issue_update s now p).1.machines = s.machines ∧
    (create_issue_update s now p).1.next_machine_id = s.next_machine_id := by
  unfold create_issue_update
  cases hp : p.status_change with
  | none => exact ⟨rfl, rfl⟩
  | some st =>
    constructor
    · exact (update_issue_status_machines _ now p.issue_id st).1
    · exact (update_issue_status_machines _ now p.issue_id st).2

theorem delete_employee_machines (s : Store) (now : Time) (pk : Nat) :
    (delete_employee s now pk).1.machines = s.machines ∧
    (delete_employee s now pk).1.next_machine_id = s.next_machine_id := by
  unfold delete_employee
  split <;> exact ⟨rfl, rfl⟩

theorem reactivate_employee_machines (s : Store) (now : Time) (pk : Nat) :
    (reactivate_employee s now pk).1.machines = s.machines ∧
    (reactivate_employee s now pk).1.next_machine_id = s.next_machine_id := by
  unfold reactivate_employee
  split <;> exact ⟨rfl, rfl⟩

theorem create_employee_ok_machines (s : Store) (now : Time) (p : EmployeeCreate)
    (s' : Store) (e : Employee) (h : create_employee s now p = .ok (s', e)) :
    s'.machines = s.machines ∧ s'.next_machine_id = s.next_machine_id := by
  unfold create_employee at h
  split at h
  · simp at h
  · split at h
    · simp at h
    · simp only [Except.ok.injEq, Prod.mk.injEq] at h
      rw [← h.1]
      exact ⟨rfl, rfl⟩

theorem update_employee_ok_machines (s : Store) (now : Time) (pk : Nat) (u : EmployeeUpdate)
    (s' : Store) (r : Option Employee) (h : update_employee s now pk u = .ok (s', r)) :
    s'.machines = s.machines ∧ s'.next_machine_id = s.next_machine_id := by
  unfold update_employee at h
  split at h
  · simp only [Except.ok.injEq, Prod.mk.injEq] at h
    rw [← h.1]
    exact ⟨rfl, rfl⟩
  · split at h
    · simp at h
    · split at h
      · simp at h
      · simp only [Except.ok.injEq, Prod.mk.injEq] at h
        rw [← h.1]
        exact ⟨rfl, rfl⟩

theorem route_ok_machines (s : Store) (now : Time) (iid : Nat) (note : String) (author : Nat)
    (st : Option String) (s' : Store)
    (h : create_issue_update_route s now iid note author st = .ok s') :
    s'.machines = s.machines ∧ s'.next_machine_id = s.next_machine_id := by
  unfold create_issue_update_route at h
  split at h
  · simp at h
  · simp only [Except.ok.injEq] at h
    rw [← h]
    exact create_issue_update_machines s now _

/-- The machine-table invariant of every reachable store: ids are bounded
by the id counter, ids are pairwise distinct (primary key), and public
slugs are pairwise distinct. -/
theorem reachable_machine_inv (s : Store) (h : Reachable s) :
    (∀ m ∈ s.machines, m.id < s.next_machine_id) ∧
    s.machines.Pairwise (fun a b => a.id ≠ b.id) ∧
    (s.machines.map (fun m => m.public_slug)).Pairwise (fun a b => a ≠ b) := by
  induction h with
  | init => simp [store0]
  | step_create_machine s now rs fuel p s' m hr hc ih =>
    rw [create_machine] at hc
    cases hslug : ensure_unique_slug s rs 0 fuel with
    | none =>
      rw [hslug] at hc
      simp at hc
    | some slug =>
      rw [hslug] at hc
      simp only [Option.some.injEq, Prod.mk.injEq] at hc
      obtain ⟨hs, _⟩ := hc
      subst hs
      have hfresh := ensure_unique_slug_fresh s rs fuel 0 slug hslug
      refine ⟨?_, ?_, ?_⟩
      · intro x hx
        rcases List.mem_append.mp hx with hx | hx
        · exact Nat.lt_trans (ih.1 x hx) (Nat.lt_succ_self _)
        · rw [List.mem_singleton.mp hx]
          exact Nat.lt_succ_self _
      · rw [List.pairwise_append]
        refine ⟨ih.2.1, by simp, ?_⟩
        intro a ha b hb
        rw [List.mem_singleton.mp hb]
        exact Nat.ne_of_lt (ih.1 a ha)
      · rw [List.map_append, List.pairwise_append]
        refine ⟨ih.2.2, by simp, ?_⟩
        intro a ha b hb
        simp only [List.map_cons, List.map_nil, List.mem_singleton] at hb
        subst hb
        obtain ⟨x, hx, rfl⟩ := List.mem_map.mp ha
        exact hfresh x hx
  | step_update_machine s now mid u hr ih =>
    rw [update_machine]
    split
    · exact ih
    · rename_i m hm
      have hmem : m ∈ s.machines := List.mem_of_find?_eq_some hm
      have hmid : (m.id == mid) = true := by simpa using List.find?_some hm
      have hmid' : m.id = mid := by simpa using hmid
      have hsym_id : Symmetric (fun a b : Machine => a.id ≠ b.id) :=
        fun a b hh he => hh he.symm
      have hpt : ∀ a ∈ s.machines,
          (if (a.id == mid) = true
            then { applyMachineUpdate m u with updated_at := now } else a).id = a.id ∧
          (if (a.id == mid) = true
            then { applyMachineUpdate m u with updated_at := now } else a).public_slug
            = a.public_slug := by
        intro a ha
        by_cases hcase : (a.id == mid) = true
        · have ham : a = m := by
            by_contra hne
            exact (List.Pairwise.forall hsym_id ih.2.1 ha hmem hne)
              (by rw [hmid', ← (by simpa using hcase : a.id = mid)])
          subst ham
          simp [hcase, applyMachineUpdate]
        · simp [hcase]
      refine ⟨?_, ?_, ?_⟩
      · intro x hx
        obtain ⟨a, ha, rfl⟩ := List.mem_map.mp hx
        have := (hpt a ha).1
        simp only at this ⊢
        rw [this]
        exact ih.1 a ha
      · rw [List.pairwise_map]
        refine List.Pairwise.imp_of_mem ?_ ih.2.1
        intro a b ha hb hne
        have h1 := (hpt a ha).1
        have h2 := (hpt b hb).1
        simp only at h1 h2 ⊢
        rw [h1, h2]
        exact hne
      · rw [List.map_map, List.pairwise_map]
        have := ih.2.2
        rw [List.pairwise_map] at this
        refine List.Pairwise.imp_of_mem ?_ this
        intro a b ha hb hne
        have h1 := (hpt a ha).2
        have h2 := (hpt b hb).2
        simp only [Function.comp] at h1 h2 ⊢
        rw [h1, h2]
        exact hne
  | step_delete_machine s mid hr ih =>
    rw [delete_machine]
    split
    · exact ih
    · refine ⟨?_, ?_, ?_⟩
      · intro x hx
        exact ih.1 x (List.mem_filter.mp hx).1
      · exact List.Pairwise.sublist (List.filter_sublist _) ih.2.1
      · exact List.Pairwise.sublist (List.Sublist.map _ (List.filter_sublist _)) ih.2.2
  | step_create_issue s now p hr ih => exact ih
  | step_update_issue_status s now iid st hr ih =>
    have hp := update_issue_status_machines s now iid st
    rw [hp.1, hp.2]
    exact ih
  | step_create_issue_update s now p hr ih =>
    have hp := create_issue_update_machines s now p
    rw [hp.1, hp.2]
    exact ih
  | step_create_maintenance s now p hr ih => exact ih
  | step_create_employee s now p s' e hr hok ih =>
    have hp := create_employee_ok_machines s now p s' e hok
    rw [hp.1, hp.2]
    exact ih
  | step_update_employee s now pk u s' r hr hok ih =>
    have hp := update_employee_ok_machines s now pk u s' r hok
    rw [hp.1, hp.2]
    exact ih
  | step_delete_employee s now pk hr ih =>
    have hp := delete_employee_machines s now pk
    rw [hp.1, hp.2]
    exact ih
  | step_reactivate_employee s now pk hr ih =>
    have hp := reactivate_employee_machines s now pk
    rw [hp.1, hp.2]
    exact ih
  | step_issue_update_route s now iid note author st s' hr hok ih =>
    have hp := route_ok_machines s now iid note author st s' hok
    rw [hp.1, hp.2]
    exact ih

/-- C7 (confirmed): every generated slug is an 8-character string over
the lowercase-letter/digit alphabet; `ensure_unique_slug`, when it
returns, returns a slug equal to no stored machine's `public_slug`; and
in every reachable store state no two machines hold an equal
`public_slug`. -/
theorem C7_slug_uniqueness :
    (∀ r : Nat → Fin 36, (generate_slug r).length = 8 ∧
      ∀ c ∈ (generate_slug r).toList, c ∈ slugAlphabet.toList) ∧
    (∀ (s : Store) (rs : Nat → Nat → Fin 36) (attempt fuel : Nat) (slug : String),
      ensure_unique_slug s rs attempt fuel = some slug →
      ∀ m ∈ s.machines, m.public_slug ≠ slug) ∧
    (∀ s : Store, Reachable s →
      (s.machines.map (fun m => m.public_slug)).Pairwise (fun a b => a ≠ b)) :=
  ⟨fun r => ⟨generate_slug_length r, generate_slug_chars r⟩,
   fun s rs attempt fuel slug hs => ensure_unique_slug_fresh s rs fuel attempt slug hs,
   fun s h => (reachable_machine_inv s h).2.2⟩

/-- Witness for C7 at the constant random stream and the empty store. -/
theorem C7_witness :
    (generate_slug (rsZero 0)).length = 8 ∧
    ensure_unique_slug store0 rsZero 0 1 = some (generate_slug (rsZero 0)) ∧
    (∀ m ∈ store0.machines, m.public_slug ≠ generate_slug (rsZero 0)) ∧
    (store0.machines.map (fun m => m.public_slug)).Pairwise (fun a b => a ≠ b) :=
  ⟨(C7_slug_uniqueness.1 (rsZero 0)).1, rfl,
   C7_slug_uniqueness.2.1 store0 rsZero 0 1 (generate_slug (rsZero 0)) rfl,
   C7_slug_uniqueness.2.2 store0 Reachable.init⟩

/-! ### C9 — search with open-issue decoration -/

/-- `matchPercent f` accepts exactly the texts with an accepted suffix. -/
theorem matchPercent_iff (f : List Char → Bool) (t : List Char) :
    matchPercent f t = true ↔ ∃ t2, t2 <:+ t ∧ f t2 = true := by
  induction t with
  | nil =>
    rw [matchPercent]
    constructor
    · intro h
      exact ⟨[], List.suffix_rfl, h⟩
    · rintro ⟨t2, h2, hf⟩
      rw [List.suffix_nil.mp h2] at hf
      exact hf
  | cons c t ih =>
    rw [matchPercent, Bool.or_eq_true, ih]
    constructor
    · rintro (h | ⟨t2, h2, hf⟩)
      · exact ⟨c :: t, List.suffix_rfl, h⟩
      · exact ⟨t2, h2.trans (List.suffix_cons c t), hf⟩
    · rintro ⟨t2, h2, hf⟩
      rcases List.suffix_cons_iff.mp h2 with h | h
      · subst h
        exact .inl hf
      · exact .inr ⟨t2, h, hf⟩

/-- A wildcard-free pattern followed by `%` matches exactly the texts it
prefixes. -/
theorem likeMatch_literal_percent (q : List Char) (hq : ∀ c ∈ q, c ≠ '%' ∧ c ≠ '_') :
    ∀ t, likeMatch (q ++ ['%']) t = true ↔ q <+: t := by
  induction q with
  | nil =>
    intro t
    rw [List.nil_append]
    simp only [likeMatch, if_true]
    rw [matchPercent_iff]
    constructor
    · intro _
      exact List.nil_prefix
    · intro _
      exact ⟨[], List.nil_suffix, rfl⟩
  | cons c q ih =>
    intro t
    have hc := hq c (List.mem_cons_self c q)
    have hq' : ∀ x ∈ q, x ≠ '%' ∧ x ≠ '_' := fun x hx => hq x (List.mem_cons_of_mem c hx)
    rw [List.cons_append]
    simp only [likeMatch]
    rw [if_neg hc.1]
    cases t with
    | nil =>
      simp [List.prefix_nil]
    | cons d t' =>
      rw [List.cons_prefix_cons, Bool.and_eq_true, Bool.or_eq_true, ih hq' t']
      constructor
      · rintro ⟨h1 | h1, h2⟩
        · exact absurd (by simpa using h1) hc.2
        · exact ⟨by simpa using h1, h2⟩
      · rintro ⟨h1, h2⟩
        exact ⟨.inr (by simpa using h1), h2⟩

/-- `%q%` with a wildcard-free `q` matches exactly the texts containing
`q` as a contiguous substring. -/
theorem likeMatch_wrap_iff (q t : List Char) (hq : ∀ c ∈ q, c ≠ '%' ∧ c ≠ '_') :
    likeMatch ('%' :: (q ++ ['%'])) t = true ↔ q <:+: t := by
  simp only [likeMatch, if_true]
  rw [matchPercent_iff]
  constructor
  · rintro ⟨t2, hsuf, hm⟩
    exact List.infix_iff_prefix_suffix.mpr ⟨t2, (likeMatch_literal_percent q hq t2).mp hm, hsuf⟩
  · intro hinf
    obtain ⟨t2, hpre, hsuf⟩ := List.infix_iff_prefix_suffix.mp hinf
    exact ⟨t2, hsuf, (likeMatch_literal_percent q hq t2).mpr hpre⟩

/-- `ILIKE '%q%'` for a wildcard-free term is case-insensitive substring
containment. -/
theorem ilike_contains_iff (q t : String) (hq : ∀ c ∈ lowerL q.toList, c ≠ '%' ∧ c ≠ '_') :
    ilike t (("%") ++ q ++ ("%")) = true ↔ lowerL q.toList <:+: lowerL t.toList := by
  have hlow : Char.toLower '%' = '%' := by decide
  have hpat : lowerL ((("%") ++ q ++ ("%")).toList) = '%' :: (lowerL q.toList ++ ['%']) := by
    show lowerL ('%' :: (q.toList ++ ['%'])) = _
    simp [lowerL, hlow]
  rw [ilike, hpat]
  exact likeMatch_wrap_iff (lowerL q.toList) (lowerL t.toList) hq

/-- `ilike` through a nullable column. -/
theorem ilikeOpt_contains_iff (q : String) (o : Option String)
    (hq : ∀ c ∈ lowerL q.toList, c ≠ '%' ∧ c ≠ '_') :
    ilikeOpt o (("%") ++ q ++ ("%")) = true ↔
      ∃ v, o = some v ∧ lowerL q.toList <:+: lowerL v.toList := by
  cases o with
  | none => simp [ilikeOpt]
  | some v => simp [ilikeOpt, ilike_contains_iff q v hq]

/-- C9 (corrected): for every wildcard-free search term,
`search_machines_with_open_issues` returns exactly the machines whose
name, serial number or location contains the term case-insensitively
(no pagination is applied: every matching machine appears), each paired
with exactly its open-or-in-progress issues ordered by `reported_at`
descending; closed issues never appear in the decoration.  (Terms
containing the SQL wildcards `%` or `_` are matched with LIKE wildcard
semantics instead — see the counterexample.) -/
theorem C9_search_decoration (s : Store) (q : String)
    (hq : ∀ c ∈ lowerL q.toList, c ≠ '%' ∧ c ≠ '_') :
    (∀ m ol, (m, ol) ∈ search_machines_with_open_issues s q →
      m ∈ s.machines ∧
      (lowerL q.toList <:+: lowerL m.name.toList ∨
        (∃ sn, m.serial_number = some sn ∧ lowerL q.toList <:+: lowerL sn.toList) ∨
        (∃ lc, m.location = some lc ∧ lowerL q.toList <:+: lowerL lc.toList)) ∧
      (∀ i, i ∈ ol ↔ i ∈ s.issues ∧ i.machine_id = m.id ∧
        (i.status = IssueStatus.opened ∨ i.status = IssueStatus.in_progress)) ∧
      ol.Sorted (fun a b => b.reported_at ≤ a.reported_at) ∧
      (∀ i ∈ ol, i.status ≠ IssueStatus.closed)) ∧
    (∀ m ∈ s.machines,
      (lowerL q.toList <:+: lowerL m.name.toList ∨
        (∃ sn, m.serial_number = some sn ∧ lowerL q.toList <:+: lowerL sn.toList) ∨
        (∃ lc, m.location = some lc ∧ lowerL q.toList <:+: lowerL lc.toList)) →
      ∃ ol, (m, ol) ∈ search_machines_with_open_issues s q) := by
  have hmatch : ∀ m : Machine,
      (ilike m.name (("%") ++ q ++ ("%")) || ilikeOpt m.serial_number (("%") ++ q ++ ("%"))
        || ilikeOpt m.location (("%") ++ q ++ ("%"))) = true ↔
      (lowerL q.toList <:+: lowerL m.name.toList ∨
        (∃ sn, m.serial_number = some sn ∧ lowerL q.toList <:+: lowerL sn.toList) ∨
        (∃ lc, m.location = some lc ∧ lowerL q.toList <:+: lowerL lc.toList)) := by
    intro m
    rw [Bool.or_eq_true, Bool.or_eq_true, ilike_contains_iff q m.name hq,
      ilikeOpt_contains_iff q m.serial_number hq, ilikeOpt_contains_iff q m.location hq]
    rw [or_assoc]
  constructor
  · intro m ol hmem
    simp only [search_machines_with_open_issues, List.mem_map] at hmem
    obtain ⟨m', hm', heq⟩ := hmem
    injection heq with h1 h2
    subst h1
    subst h2
    rw [sortByDesc, List.mem_insertionSort, List.mem_filter] at hm'
    obtain ⟨hmachine, hpred⟩ := hm'
    refine ⟨hmachine, (hmatch m').mp hpred, ?_, sortByDesc_sorted _ _, ?_⟩
    · intro i
      rw [sortByDesc, List.mem_insertionSort, List.mem_filter]
      simp [Bool.and_eq_true, Bool.or_eq_true]
    · intro i hi
      rw [sortByDesc, List.mem_insertionSort, List.mem_filter] at hi
      have := hi.2
      rw [Bool.and_eq_true, Bool.or_eq_true] at this
      rcases this.2 with h | h
      · rw [show i.status = IssueStatus.opened from by simpa using h]
        intro hh
        cases hh
      · rw [show i.status = IssueStatus.in_progress from by simpa using h]
        intro hh
        cases hh
  · intro m hm hcond
    have hin : (m, sortByDesc (fun i => i.reported_at) (s.issues.filter (fun i =>
        i.machine_id == m.id &&
          (i.status == IssueStatus.opened || i.status == IssueStatus.in_progress))))
        ∈ search_machines_with_open_issues s q := by
      simp only [search_machines_with_open_issues, List.mem_map]
      refine ⟨m, ?_, rfl⟩
      rw [sortByDesc, List.mem_insertionSort, List.mem_filter]
      exact ⟨hm, (hmatch m).mpr hcond⟩
    exact ⟨_, hin⟩

/-- Witness for C9: the wildcard-free term "x" finds the machine named
"xy" of `storeC9`. -/
theorem C9_witness :
    (∀ c ∈ lowerL ("x").toList, c ≠ '%' ∧ c ≠ '_') ∧
    machineC9 ∈ storeC9.machines ∧
    lowerL ("x").toList <:+: lowerL (machineC9.name).toList ∧
    (∃ ol, (machineC9, ol) ∈ search_machines_with_open_issues storeC9 ("x")) :=
  ⟨by decide, by decide, by decide,
    (C9_search_decoration storeC9 ("x") (by decide)).2 machineC9 (by decide)
      (.inl (by decide))⟩

/-- C9 counterexample: the term "x_" contains the SQL wildcard `_`, so
the search pattern `%x_%` matches the machine named "xy" even though
"xy" does not contain the two-character string "x_" — the claim's
"contains the term case-insensitively" reading of the result set is
false for wildcard-bearing terms. -/
theorem C9_counterexample :
    machineC9.name = ("xy") ∧ machineC9.serial_number = none ∧ machineC9.location = none ∧
    ((search_machines_with_open_issues storeC9 ("x_")).map (fun p => p.1.id)) = [1] ∧
    ¬ (lowerL ("x_").toList <:+: lowerL ("xy").toList) :=
  ⟨rfl, rfl, rfl, by decide, by decide⟩
